import Mathlib

/-!
Verification of the RepoNuke batch repository deletion tool
(`batch_delete.py`) against its natural-language specification.

The script is shallowly embedded: each Python method becomes a Lean
function over explicit state, and the outcomes of the external `gh`
calls (repository validation, repository deletion, the authenticated
user, the repository listing) together with the interactive inputs are
supplied as oracle data.  `sys.exit(n)` is modelled as data (an exit
code recorded in the result), and the append-only log is modelled as
the list of messages written (timestamps are real time and are not
modelled).
-/

/-- Python whitespace, as recognised by `str.strip`, `str.split()` and
`int()`: space, tab, newline, carriage return, vertical tab, form feed. -/
def pyIsSpace (c : Char) : Bool :=
  c = ' ' || c = '\t' || c = '\n' || c = '\r' || c.toNat = 11 || c.toNat = 12

/-- Python `str.strip()` with no arguments: remove leading and trailing
whitespace. -/
def pyStrip (s : String) : String :=
  ⟨((s.data.dropWhile pyIsSpace).reverse.dropWhile pyIsSpace).reverse⟩

/-- Helper for `pySplit`: accumulate the current (reversed) token while
scanning the character list. -/
def pySplitAux : List Char → List Char → List String
  | [], [] => []
  | [], cur => [⟨cur.reverse⟩]
  | c :: rest, cur =>
    if pyIsSpace c then
      if cur = [] then pySplitAux rest []
      else ⟨cur.reverse⟩ :: pySplitAux rest []
    else pySplitAux rest (c :: cur)

/-- Python `str.split()` with no arguments: split on runs of whitespace,
discarding empty tokens. -/
def pySplit (s : String) : List String :=
  pySplitAux s.data []

/-- Python `str.lower()` (ASCII case mapping; the script only compares
against the ASCII literal `"all"`). -/
def pyLower (s : String) : String :=
  ⟨s.data.map Char.toLower⟩

/-- Tail of a Python integer literal body: digits with single underscores
allowed only between digits. -/
def pyDigitsCore : List Char → Bool
  | [] => true
  | '_' :: c :: rest => c.isDigit && pyDigitsCore rest
  | '_' :: [] => false
  | c :: rest => c.isDigit && pyDigitsCore rest

/-- A valid Python integer literal body: at least one digit, underscores
only between digits (`int("1_2") = 12`, `int("_1")` and `int("1_")` fail). -/
def pyDigitsValid : List Char → Bool
  | [] => false
  | '_' :: _ => false
  | c :: rest => c.isDigit && pyDigitsCore rest

/-- Numeric value of a digit sequence, skipping underscores. -/
def pyDigitsVal (cs : List Char) : Nat :=
  cs.foldl (fun a c => if c = '_' then a else a * 10 + (c.toNat - 48)) 0

/-- Python `int(s)`: strip whitespace, allow one optional sign, then a
digit body; any other shape raises `ValueError`, modelled as `none`. -/
def pyInt (s : String) : Option Int :=
  let cs := ((s.data.dropWhile pyIsSpace).reverse.dropWhile pyIsSpace).reverse
  match cs with
  | '+' :: rest => if pyDigitsValid rest then some ((pyDigitsVal rest : Nat) : Int) else none
  | '-' :: rest => if pyDigitsValid rest then some (-((pyDigitsVal rest : Nat) : Int)) else none
  | _ => if pyDigitsValid cs then some ((pyDigitsVal cs : Nat) : Int) else none

/-- The mutable fields of the `BatchDeleter` object that the deletion
logic reads (the counters are reset by `batch_delete` itself and are
therefore part of the result, not the input state). -/
structure DeleterState where
  username : String
  repositories : List String
  verbose : Bool
  dry_run : Bool
deriving Repr, DecidableEq

/-- Oracle for the external world during `batch_delete`: the outcome of
`gh repo view` per candidate name, the outcome of `gh repo delete` per
name, and the line typed at the confirmation prompt (`none` models a
`KeyboardInterrupt`). -/
structure Env where
  valid : String → Bool
  deleteOk : String → Bool
  confirmation : Option String

/-- `BatchDeleter.delete_repository`: returns the boolean result, the
list of external `gh repo delete` targets issued, and the log lines
written.  In dry-run mode it only prints, returns `True`, issues no
call and writes nothing. -/
def delete_repository (s : DeleterState) (deleteOk : String → Bool) (repo : String) :
    Bool × List String × List String :=
  if s.dry_run then (true, [], [])
  else if deleteOk repo then
    (true, [s.username ++ "/" ++ repo],
      ["SUCCESS: Deleted repository " ++ s.username ++ "/" ++ repo])
  else
    (false, [s.username ++ "/" ++ repo],
      ["FAILED: Could not delete repository " ++ s.username ++ "/" ++ repo])

/-- Validation loop of `batch_delete` (lines 249-255): build `valid_repos`
in order and count each failing candidate into `failed_deletions`. -/
def validationPass (valid : String → Bool) (repos : List String) : List String × Nat :=
  repos.foldl
    (fun acc r => if valid r then (acc.1 ++ [r], acc.2) else (acc.1, acc.2 + 1))
    ([], 0)

/-- Accumulator of the deletion loop: the two counters, the external
delete calls issued, and the log lines written. -/
structure DelAcc where
  succ : Nat
  fail : Nat
  live : List String
  logs : List String
deriving Repr, DecidableEq

/-- One iteration of the deletion loop (lines 286-292). -/
def delStep (s : DeleterState) (deleteOk : String → Bool) (acc : DelAcc) (repo : String) :
    DelAcc :=
  let r := delete_repository s deleteOk repo
  { succ := if r.1 then acc.succ + 1 else acc.succ
    fail := if r.1 then acc.fail else acc.fail + 1
    live := acc.live ++ r.2.1
    logs := acc.logs ++ r.2.2 }

/-- The deletion loop of `batch_delete` over the validated list. -/
def deletionLoop (s : DeleterState) (deleteOk : String → Bool) (acc : DelAcc)
    (repos : List String) : DelAcc :=
  repos.foldl (delStep s deleteOk) acc

/-- The confirmation gate (lines 262-280): proceeds when auto-confirm is
set, or when the typed line is exactly `DELETE`; a `KeyboardInterrupt`
(`none`) or any other line cancels. -/
def confirmOk (auto_confirm : Bool) (conf : Option String) : Bool :=
  auto_confirm ||
    (match conf with
     | some c => c == "DELETE"
     | none => false)

/-- The summary log line of `batch_delete` (line 305). -/
def summaryLine (succ fail : Nat) : String :=
  "SUMMARY: Processed " ++ toString (succ + fail) ++ " repositories, " ++
    toString succ ++ " successful, " ++ toString fail ++ " failed"

/-- Observable outcome of one `batch_delete` call.  `exitCode = some n`
means the process called `sys.exit(n)`; `none` means the method returned
normally (the process later exits 0).  `deletionCalls` is the list of
repositories `delete_repository` was invoked on, `liveDeleteCalls` the
external `gh repo delete` targets actually issued, `logLines` the log
messages written, and `totalPrinted` the "Total processed" number of the
summary (present only when the summary is reached). -/
structure BatchTrace where
  validRepos : List String
  exitCode : Option Nat
  confirmPrompted : Bool
  deletionCalls : List String
  liveDeleteCalls : List String
  logLines : List String
  successful : Nat
  failed : Nat
  totalPrinted : Option Nat
deriving Repr, DecidableEq

/-- `BatchDeleter.batch_delete` (lines 238-311): reset counters, validate
every candidate, exit 1 if nothing survived, run the confirmation gate
unless auto-confirm, then delete the validated list in order and print
the summary. -/
def batch_delete (env : Env) (s : DeleterState) (auto_confirm : Bool) : BatchTrace :=
  let vp := validationPass env.valid s.repositories
  if vp.1 = [] then
    { validRepos := vp.1, exitCode := some 1, confirmPrompted := false
      deletionCalls := [], liveDeleteCalls := [], logLines := []
      successful := 0, failed := vp.2, totalPrinted := none }
  else if confirmOk auto_confirm env.confirmation then
    let acc := deletionLoop s env.deleteOk
      { succ := 0, fail := vp.2, live := [], logs := [] } vp.1
    { validRepos := vp.1, exitCode := none, confirmPrompted := !auto_confirm
      deletionCalls := vp.1, liveDeleteCalls := acc.live
      logLines := acc.logs ++ (if s.dry_run then [] else [summaryLine acc.succ acc.fail])
      successful := acc.succ, failed := acc.fail
      totalPrinted := some (acc.succ + acc.fail) }
  else
    { validRepos := vp.1, exitCode := some 0, confirmPrompted := true
      deletionCalls := [], liveDeleteCalls := [], logLines := []
      successful := 0, failed := vp.2, totalPrinted := none }

/-- Numeric-token branch of `interactive_selection` (lines 147-157):
walk the whitespace-separated tokens, keep the repositories at valid
in-range 1-based indices, skip everything else. -/
def selectFromTokens (sel : String) (repos : List String) : List String :=
  (pySplit sel).foldl
    (fun acc t =>
      match pyInt t with
      | some n =>
        if 1 ≤ n ∧ n ≤ (repos.length : Int) then acc ++ [repos.getD (n.toNat - 1) ""]
        else acc
      | none => acc)
    []

/-- `BatchDeleter.interactive_selection` (lines 119-161) over the listed
repositories and the typed line (`none` models a `KeyboardInterrupt`).
A `none` result models `sys.exit(0)` (no repositories listed, interrupt,
or an empty final selection); `some sel` means the method returned with
`self.repositories = sel`. -/
def interactive_selection (listed : List String) (inp : Option String) :
    Option (List String) :=
  if listed.isEmpty then none
  else
    match inp with
    | none => none
    | some line =>
      let sel := pyStrip line
      let chosen := if pyLower sel = "all" then listed else selectFromTokens sel listed
      if chosen.isEmpty then none else some chosen

/-- A parsed configuration file: `none` fields model absent JSON keys;
Python truthiness of a present value is emptiness of the string or list. -/
structure Config where
  username : Option String
  repositories : Option (List String)
deriving Repr, DecidableEq

/-- `BatchDeleter.load_config` (lines 194-198) on an already-parsed
configuration: each field overwrites the current value only when present
and truthy (non-empty). -/
def load_config (c : Config) (username : String) (repositories : List String) :
    String × List String :=
  (match c.username with
   | some u => if u = "" then username else u
   | none => username,
   match c.repositories with
   | some rs => if rs = [] then repositories else rs
   | none => repositories)

/-- Command-line arguments of `main` relevant to input resolution.
Whether `--config` / `--file` were given, and what loading them yields,
is carried separately by the oracle parameters of `mainResolve`. -/
structure Args where
  repositories : List String
  username : Option String
  auto_confirm : Bool
  verbose : Bool
  dry_run : Bool
  interactive : Bool
deriving Repr, DecidableEq

/-- Where vetting of the inputs in `main` can end up.  `fatal` models
`sys.exit(1)` during config/file loading, `exitSelection` a `sys.exit(0)`
inside `interactive_selection`, `noReposBranch` the
"No repositories specified for deletion." `sys.exit(0)` branch
(lines 380-383), and `proceed u rs` reaching `batch_delete` with the
resolved username `u` and repository list `rs`. -/
inductive MainRes where
  | fatal
  | exitSelection
  | noReposBranch
  | proceed (username : String) (repos : List String)
deriving Repr, DecidableEq

/-- `main` from the positional-argument step onward (lines 372-386):
append positional names, run the interactive picker when requested or
when the list is still empty, then take the empty-list branch or call
`batch_delete`. -/
def mainAfterFile (args : Args) (listed : List String) (selInput : Option String)
    (u : String) (repos : List String) : MainRes :=
  let r4 := repos ++ args.repositories
  match (if args.interactive || r4.isEmpty then interactive_selection listed selInput
         else some r4) with
  | none => MainRes.exitSelection
  | some rs => if rs.isEmpty then MainRes.noReposBranch else MainRes.proceed u rs

/-- `main` from the `--file` step onward (lines 368-369): a failing load
is fatal, a successful load replaces the list wholesale.  `fileStep` is
`none` when `--file` was not given, `some none` when loading exits 1,
`some (some lines)` when it loads these lines. -/
def mainAfterConfig (args : Args) (fileStep : Option (Option (List String)))
    (listed : List String) (selInput : Option String)
    (u : String) (repos : List String) : MainRes :=
  match fileStep with
  | some none => MainRes.fatal
  | some (some lines) => mainAfterFile args listed selInput u lines
  | none => mainAfterFile args listed selInput u repos

/-- Input resolution of `main` (lines 350-386): the `--username` flag is
applied first (Python truthiness: an empty flag is ignored), then
`get_username` queries `gh` only when the username is still empty
(`ghUser = none` models a failed query, which leaves it empty), then the
config file, the list file, positional arguments and the interactive
picker.  `configStep` is `none` when `--config` was not given,
`some none` when loading it exits 1, `some (some c)` when it parses to
`c`.  `listed` is the repository listing the picker would fetch and
`selInput` the line typed there. -/
def mainResolve (args : Args) (ghUser : Option String)
    (configStep : Option (Option Config)) (fileStep : Option (Option (List String)))
    (listed : List String) (selInput : Option String) : MainRes :=
  let u0 := args.username.getD ""
  let u1 := if u0 = "" then ghUser.getD "" else u0
  match configStep with
  | some none => MainRes.fatal
  | some (some c) =>
    let p := load_config c u1 []
    mainAfterConfig args fileStep listed selInput p.1 p.2
  | none => mainAfterConfig args fileStep listed selInput u1 []

/-- Combined per-call success condition of the deletion loop: a call to
`delete_repository` returns `True` exactly when in dry-run mode or when
the external delete succeeds. -/
def callOk (s : DeleterState) (deleteOk : String → Bool) (r : String) : Bool :=
  s.dry_run || deleteOk r

/-- External `gh repo delete` targets issued by the deletion loop over a
list of repositories. -/
def liveCallsOf (s : DeleterState) (repos : List String) : List String :=
  if s.dry_run then [] else repos.map (fun r => s.username ++ "/" ++ r)

/-- The log line written by one live deletion attempt. -/
def logLineOf (s : DeleterState) (deleteOk : String → Bool) (r : String) : String :=
  if deleteOk r then "SUCCESS: Deleted repository " ++ s.username ++ "/" ++ r
  else "FAILED: Could not delete repository " ++ s.username ++ "/" ++ r

/-- Log lines written by the deletion loop over a list of repositories. -/
def logsOf (s : DeleterState) (deleteOk : String → Bool) (repos : List String) :
    List String :=
  if s.dry_run then [] else repos.map (logLineOf s deleteOk)

/-- Spec-side description of the numeric-token selection: the
repositories at the in-range numeric 1-based indices of the
whitespace-separated tokens, in token order, with out-of-range and
non-numeric tokens skipped.  To be compared with `selectFromTokens`,
which embeds the source loop. -/
def selectedBySpec (sel : String) (repos : List String) : List String :=
  (pySplit sel).filterMap (fun t =>
    match pyInt t with
    | some n =>
      if 1 ≤ n ∧ n ≤ (repos.length : Int) then some (repos.getD (n.toNat - 1) "")
      else none
    | none => none)

/-- Fixture: every candidate validates and deletes, confirmation typed
correctly. -/
def envAllOk : Env :=
  { valid := fun _ => true, deleteOk := fun _ => true, confirmation := some "DELETE" }

/-- Fixture: confirmation typed in lowercase, which must cancel. -/
def envCancel : Env :=
  { valid := fun _ => true, deleteOk := fun _ => true, confirmation := some "delete" }

/-- Fixture: no candidate validates. -/
def envNoneValid : Env :=
  { valid := fun _ => false, deleteOk := fun _ => true, confirmation := some "DELETE" }

/-- Fixture: the candidate `bad` fails validation and the candidate
`hard` fails live deletion. -/
def envMixed : Env :=
  { valid := fun r => r != "bad", deleteOk := fun r => r != "hard",
    confirmation := some "DELETE" }

/-- Fixture: a live-mode state with one candidate. -/
def sOne : DeleterState :=
  { username := "u", repositories := ["a"], verbose := false, dry_run := false }

/-- Fixture: a live-mode state with a mixed candidate list. -/
def sLive : DeleterState :=
  { username := "u", repositories := ["a", "bad", "b", "hard"], verbose := false,
    dry_run := false }

/-- Fixture: a dry-run state with two candidates. -/
def sDry : DeleterState :=
  { username := "u", repositories := ["a", "b"], verbose := false, dry_run := true }

/-- Fixture: arguments with no flags and no positional names. -/
def argsBase : Args :=
  { repositories := [], username := none, auto_confirm := false, verbose := false,
    dry_run := false, interactive := false }

/-- Fixture: an explicit `--username flaguser` flag. -/
def argsFlag : Args :=
  { argsBase with username := some "flaguser" }

/-- Fixture: a config file carrying both a username and a repository
list. -/
def configBoth : Config :=
  { username := some "configuser", repositories := some ["r1"] }

/-- Fixture: one positional repository name. -/
def argsPositional : Args :=
  { argsBase with repositories := ["a"] }

theorem validationPass_go (valid : String → Bool) (repos : List String) :
    ∀ (acc : List String) (n : Nat),
      repos.foldl
          (fun acc r => if valid r then (acc.1 ++ [r], acc.2) else (acc.1, acc.2 + 1))
          (acc, n)
        = (acc ++ repos.filter valid,
           n + (repos.filter (fun r => !valid r)).length) := by
  induction repos with
  | nil => intro acc n; simp
  | cons r rs ih =>
    intro acc n
    cases hv : valid r with
    | true => simp [List.foldl_cons, hv, ih, List.filter_cons]
    | false =>
      simp only [List.foldl_cons, hv, Bool.false_eq_true, if_false, List.filter_cons,
        Bool.not_false, if_true, ih]
      refine Prod.ext ?_ ?_
      · simp
      · simp
        omega

/-- The validation loop builds exactly the in-order filter of the
candidates and counts exactly the candidates that fail. -/
theorem validationPass_eq (valid : String → Bool) (repos : List String) :
    validationPass valid repos
      = (repos.filter valid, (repos.filter (fun r => !valid r)).length) := by
  simpa [validationPass] using validationPass_go valid repos [] 0

theorem deletionLoop_spec (s : DeleterState) (ok : String → Bool) (repos : List String) :
    ∀ acc : DelAcc,
      deletionLoop s ok acc repos =
        { succ := acc.succ + (repos.filter (callOk s ok)).length
          fail := acc.fail + (repos.filter (fun r => !callOk s ok r)).length
          live := acc.live ++ liveCallsOf s repos
          logs := acc.logs ++ logsOf s ok repos } := by
  induction repos with
  | nil =>
    intro acc
    simp [deletionLoop, liveCallsOf, logsOf]
  | cons r rs ih =>
    intro acc
    simp only [deletionLoop, List.foldl_cons] at ih ⊢
    rw [ih]
    cases hd : s.dry_run with
    | true =>
      simp [delStep, delete_repository, hd, callOk, liveCallsOf, logsOf,
        List.filter_cons]
      omega
    | false =>
      cases hk : ok r with
      | true =>
        simp [delStep, delete_repository, hd, hk, callOk, liveCallsOf, logsOf,
          logLineOf, List.filter_cons, DelAcc.mk.injEq]
        omega
      | false =>
        simp [delStep, delete_repository, hd, hk, callOk, liveCallsOf, logsOf,
          logLineOf, List.filter_cons, DelAcc.mk.injEq]
        omega

/-- `batch_delete` when no candidate survives validation: exit 1 before
the prompt and before any deletion. -/
theorem batch_delete_no_valid (env : Env) (s : DeleterState) (ac : Bool)
    (h : s.repositories.filter env.valid = []) :
    batch_delete env s ac =
      { validRepos := [], exitCode := some 1, confirmPrompted := false
        deletionCalls := [], liveDeleteCalls := [], logLines := []
        successful := 0
        failed := (s.repositories.filter (fun r => !env.valid r)).length
        totalPrinted := none } := by
  simp [batch_delete, validationPass_eq, h]

/-- `batch_delete` when validation leaves survivors but the confirmation
gate refuses: exit 0 with nothing attempted. -/
theorem batch_delete_cancelled (env : Env) (s : DeleterState) (ac : Bool)
    (h1 : s.repositories.filter env.valid ≠ [])
    (h2 : confirmOk ac env.confirmation = false) :
    batch_delete env s ac =
      { validRepos := s.repositories.filter env.valid, exitCode := some 0
        confirmPrompted := true, deletionCalls := [], liveDeleteCalls := []
        logLines := [], successful := 0
        failed := (s.repositories.filter (fun r => !env.valid r)).length
        totalPrinted := none } := by
  simp [batch_delete, validationPass_eq, h1, h2]

/-- `batch_delete` when validation leaves survivors and the gate passes:
the validated list is deleted in order and the summary is produced. -/
theorem batch_delete_proceed (env : Env) (s : DeleterState) (ac : Bool)
    (h1 : s.repositories.filter env.valid ≠ [])
    (h2 : confirmOk ac env.confirmation = true) :
    batch_delete env s ac =
      { validRepos := s.repositories.filter env.valid, exitCode := none
        confirmPrompted := !ac
        deletionCalls := s.repositories.filter env.valid
        liveDeleteCalls := liveCallsOf s (s.repositories.filter env.valid)
        logLines := logsOf s env.deleteOk (s.repositories.filter env.valid)
          ++ (if s.dry_run then []
              else [summaryLine
                (((s.repositories.filter env.valid).filter (callOk s env.deleteOk)).length)
                ((s.repositories.filter (fun r => !env.valid r)).length
                  + (((s.repositories.filter env.valid).filter
                      (fun r => !callOk s env.deleteOk r)).length))])
        successful :=
          ((s.repositories.filter env.valid).filter (callOk s env.deleteOk)).length
        failed :=
          (s.repositories.filter (fun r => !env.valid r)).length
            + (((s.repositories.filter env.valid).filter
                (fun r => !callOk s env.deleteOk r)).length)
        totalPrinted :=
          some ((((s.repositories.filter env.valid).filter (callOk s env.deleteOk)).length)
            + ((s.repositories.filter (fun r => !env.valid r)).length
              + (((s.repositories.filter env.valid).filter
                  (fun r => !callOk s env.deleteOk r)).length))) } := by
  simp [batch_delete, validationPass_eq, h1, h2, deletionLoop_spec]

theorem selectFromTokens_go (repos : List String) (ts : List String) :
    ∀ acc : List String,
      ts.foldl
          (fun acc t =>
            match pyInt t with
            | some n =>
              if 1 ≤ n ∧ n ≤ (repos.length : Int) then acc ++ [repos.getD (n.toNat - 1) ""]
              else acc
            | none => acc)
          acc
        = acc ++ ts.filterMap (fun t =>
            match pyInt t with
            | some n =>
              if 1 ≤ n ∧ n ≤ (repos.length : Int) then some (repos.getD (n.toNat - 1) "")
              else none
            | none => none) := by
  induction ts with
  | nil => intro acc; simp
  | cons t ts ih =>
    intro acc
    simp only [List.foldl_cons, List.filterMap_cons]
    cases hp : pyInt t with
    | none =>
      simp only [hp]
      rw [ih]
    | some n =>
      simp only [hp]
      by_cases hr : 1 ≤ n ∧ n ≤ (repos.length : Int)
      · simp only [if_pos hr]
        rw [ih]
        simp
      · simp only [if_neg hr]
        rw [ih]

/-- The numeric-token loop of `interactive_selection` computes exactly
the spec-side selection. -/
theorem selectFromTokens_eq (sel : String) (repos : List String) :
    selectFromTokens sel repos = selectedBySpec sel repos := by
  simpa [selectFromTokens, selectedBySpec] using selectFromTokens_go repos (pySplit sel) []

/-- When `interactive_selection` returns (rather than exiting), the
installed repository list is non-empty. -/
theorem interactive_selection_ne_nil (listed : List String) (inp : Option String)
    (rs : List String) (h : interactive_selection listed inp = some rs) : rs ≠ [] := by
  by_cases hE : listed.isEmpty
  · simp [interactive_selection, hE] at h
  · rcases inp with _ | line
    · simp [interactive_selection, hE] at h
    · by_cases hC : (if pyLower (pyStrip line) = "all" then listed
          else selectFromTokens (pyStrip line) listed).isEmpty
      · simp [interactive_selection, hE, hC] at h
      · simp [interactive_selection, hE, hC] at h
        intro hnil
        rw [h, hnil] at hC
        exact hC rfl

/-- The tail of `main` never takes the empty-list branch, and whenever it
proceeds to `batch_delete` it does so with the username it was handed
and a non-empty repository list. -/
theorem mainAfterFile_spec (args : Args) (listed : List String) (selInput : Option String)
    (u : String) (repos : List String) :
    mainAfterFile args listed selInput u repos ≠ MainRes.noReposBranch
    ∧ ∀ u2 rs, mainAfterFile args listed selInput u repos = MainRes.proceed u2 rs →
        u2 = u ∧ rs ≠ [] := by
  by_cases hc : (args.interactive || (repos ++ args.repositories).isEmpty) = true
  · cases hS : interactive_selection listed selInput with
    | none =>
      simp [mainAfterFile, hc, hS]
    | some rs0 =>
      have hne := interactive_selection_ne_nil listed selInput rs0 hS
      have hE : rs0.isEmpty = false := by
        cases rs0 with
        | nil => exact absurd rfl hne
        | cons a l => rfl
      constructor
      · simp [mainAfterFile, hc, hS, hne]
      · intro u2 rs hp
        simp [mainAfterFile, hc, hS, hne] at hp
        obtain ⟨h1, h2⟩ := hp
        subst h2
        exact ⟨h1.symm, hne⟩
  · obtain ⟨hI, hE⟩ := Bool.or_eq_false_iff.mp (Bool.not_eq_true _ |>.mp hc)
    have hne : repos ++ args.repositories ≠ [] := by
      intro hnil
      rw [hnil] at hE
      exact absurd hE (by simp)
    constructor
    · simp [mainAfterFile, hI, hE, hne]
    · intro u2 rs hp
      simp [mainAfterFile, hI, hE, hne] at hp
      obtain ⟨h1, h2⟩ := hp
      subst h2
      exact ⟨h1.symm, hne⟩

/-- `mainAfterConfig` never takes the empty-list branch, and proceeds
only with the username it was handed and a non-empty list. -/
theorem mainAfterConfig_spec (args : Args) (fileStep : Option (Option (List String)))
    (listed : List String) (selInput : Option String) (u : String) (repos : List String) :
    mainAfterConfig args fileStep listed selInput u repos ≠ MainRes.noReposBranch
    ∧ ∀ u2 rs, mainAfterConfig args fileStep listed selInput u repos
        = MainRes.proceed u2 rs → u2 = u ∧ rs ≠ [] := by
  rcases fileStep with _ | (_ | lines)
  · simpa only [mainAfterConfig] using mainAfterFile_spec args listed selInput u repos
  · refine ⟨?_, ?_⟩
    · intro h
      simp [mainAfterConfig] at h
    · intro u2 rs h
      simp [mainAfterConfig] at h
  · simpa only [mainAfterConfig] using mainAfterFile_spec args listed selInput u lines

/-- Claim C1: for every candidate list, `batch_delete` validates each
candidate, the list handed to the deletion loop is exactly the in-order
filter of the candidates by `validate_repository` (duplicates kept), a
candidate failing validation is counted into the failure counter and is
never passed to `delete_repository`. -/
theorem batch_delete_deletes_exactly_validated (env : Env) (s : DeleterState) (ac : Bool) :
    (batch_delete env s ac).validRepos = s.repositories.filter env.valid
    ∧ ((batch_delete env s ac).deletionCalls = s.repositories.filter env.valid
        ∨ (batch_delete env s ac).deletionCalls = [])
    ∧ (∀ r, r ∈ (batch_delete env s ac).deletionCalls → env.valid r = true)
    ∧ (batch_delete env s ac).failed
        = (s.repositories.filter (fun r => !env.valid r)).length
          + ((batch_delete env s ac).deletionCalls.filter
              (fun r => !callOk s env.deleteOk r)).length := by
  by_cases h1 : s.repositories.filter env.valid = []
  · rw [batch_delete_no_valid env s ac h1]
    simp [h1]
  · cases h2 : confirmOk ac env.confirmation with
    | false =>
      rw [batch_delete_cancelled env s ac h1 h2]
      simp
    | true =>
      rw [batch_delete_proceed env s ac h1 h2]
      refine ⟨rfl, Or.inl rfl, ?_, rfl⟩
      intro r hr
      exact (List.mem_filter.mp hr).2

/-- Witness for C1 on a concrete run with a mixed candidate list. -/
theorem batch_delete_deletes_exactly_validated_witness :
    (batch_delete envMixed sLive false).validRepos = ["a", "b", "hard"]
    ∧ envMixed.valid "a" = true :=
  ⟨((batch_delete_deletes_exactly_validated envMixed sLive false).1).trans (by decide),
   (batch_delete_deletes_exactly_validated envMixed sLive false).2.2.1 "a" (by decide)⟩

/-- Claim C2: without auto-confirm, any confirmation input other than
the exact string DELETE (or an interruption, modelled as `none`) exits
with code 0 before any `delete_repository` call: nothing is attempted,
no external deletion is issued, nothing is logged. -/
theorem confirmation_gate_cancels (env : Env) (s : DeleterState)
    (hconf : env.confirmation ≠ some "DELETE")
    (hvalid : s.repositories.filter env.valid ≠ []) :
    (batch_delete env s false).exitCode = some 0
    ∧ (batch_delete env s false).deletionCalls = []
    ∧ (batch_delete env s false).liveDeleteCalls = []
    ∧ (batch_delete env s false).logLines = []
    ∧ (batch_delete env s false).successful = 0 := by
  have h2 : confirmOk false env.confirmation = false := by
    cases hc : env.confirmation with
    | none => simp [confirmOk]
    | some c =>
      have hne : c ≠ "DELETE" := by
        intro e
        exact hconf (by rw [hc, e])
      simp [confirmOk, hne]
  rw [batch_delete_cancelled env s false hvalid h2]
  exact ⟨rfl, rfl, rfl, rfl, rfl⟩

/-- Witness for C2 with the lowercase input `delete`. -/
theorem confirmation_gate_cancels_witness :
    (batch_delete envCancel sOne false).exitCode = some 0
    ∧ (batch_delete envCancel sOne false).deletionCalls = []
    ∧ (batch_delete envCancel sOne false).liveDeleteCalls = []
    ∧ (batch_delete envCancel sOne false).logLines = []
    ∧ (batch_delete envCancel sOne false).successful = 0 :=
  confirmation_gate_cancels envCancel sOne (by decide) (by decide)

/-- Claim C3: in dry-run mode `delete_repository` issues no external
call, writes no log line and returns true; over a run that reaches the
deletion loop, no live call is issued, nothing is logged, the success
counter equals the number of validated candidates, and validation was
still performed on every candidate (the deletion list is the validated
filter and the failure counter counts exactly the invalid candidates). -/
theorem dry_run_behaviour (env : Env) (s : DeleterState) (ac : Bool)
    (hdry : s.dry_run = true)
    (hvalid : s.repositories.filter env.valid ≠ [])
    (hgo : confirmOk ac env.confirmation = true) :
    (∀ ok r, delete_repository s ok r = (true, [], []))
    ∧ (batch_delete env s ac).liveDeleteCalls = []
    ∧ (batch_delete env s ac).logLines = []
    ∧ (batch_delete env s ac).successful = (s.repositories.filter env.valid).length
    ∧ (batch_delete env s ac).deletionCalls = s.repositories.filter env.valid
    ∧ (batch_delete env s ac).failed
        = (s.repositories.filter (fun r => !env.valid r)).length := by
  refine ⟨fun ok r => by simp [delete_repository, hdry], ?_, ?_, ?_, ?_, ?_⟩
  all_goals rw [batch_delete_proceed env s ac hvalid hgo]
  all_goals simp [liveCallsOf, logsOf, callOk, hdry]

/-- Witness for C3 on a concrete dry run with two candidates. -/
theorem dry_run_behaviour_witness :
    delete_repository sDry (fun _ => true) "a" = (true, [], [])
    ∧ (batch_delete envAllOk sDry false).liveDeleteCalls = []
    ∧ (batch_delete envAllOk sDry false).logLines = []
    ∧ (batch_delete envAllOk sDry false).successful = 2 := by
  obtain ⟨h1, h2, h3, h4, h5, h6⟩ :=
    dry_run_behaviour envAllOk sDry false (by decide) (by decide) (by decide)
  exact ⟨h1 (fun _ => true) "a", h2, h3, h4.trans (by decide)⟩

/-- Claim C4, counterexample: with `--username flaguser` and a config
file whose username is `configuser`, the run proceeds with `configuser`,
not the flag value — the config file, loaded after the flag, overrides
it. -/
theorem username_flag_precedence_counterexample :
    mainResolve argsFlag none (some (some configBoth)) none [] none
      = MainRes.proceed "configuser" ["r1"]
    ∧ "configuser" ≠ "flaguser" := by
  exact ⟨by decide, by decide⟩

/-- Claim C4, amended: the config file's non-empty `username` field
takes precedence over the explicit `--username` flag — for every run
where both are supplied, the username used is the config one. -/
theorem username_config_overrides_flag (args : Args) (ghUser : Option String)
    (c : Config) (fileStep : Option (Option (List String))) (listed : List String)
    (selInput : Option String) (uf uc u : String) (rs : List String)
    (_hflag : args.username = some uf) (_hufne : uf ≠ "")
    (hcu : c.username = some uc) (hucne : uc ≠ "")
    (hrun : mainResolve args ghUser (some (some c)) fileStep listed selInput
        = MainRes.proceed u rs) :
    u = uc := by
  have hload : ∀ u0 rs0, (load_config c u0 rs0).1 = uc := by
    intro u0 rs0
    simp [load_config, hcu, hucne]
  simp only [mainResolve] at hrun
  have := (mainAfterConfig_spec args fileStep listed selInput _ _).2 u rs hrun
  exact this.1.trans (hload _ _)

/-- Witness for the amended C4 at the counterexample's concrete input. -/
theorem username_config_overrides_flag_witness :
    mainResolve argsFlag none (some (some configBoth)) none [] none
      = MainRes.proceed "configuser" ["r1"]
    ∧ ("configuser" : String) = "configuser" :=
  ⟨by decide,
   username_config_overrides_flag argsFlag none configBoth none [] none
     "flaguser" "configuser" "configuser" ["r1"] rfl (by decide) rfl (by decide) (by decide)⟩

/-- Claim C5: when zero candidates pass validation, `batch_delete` exits
with code 1 before the confirmation prompt and before any
`delete_repository` call. -/
theorem empty_validated_exits_one (env : Env) (s : DeleterState) (ac : Bool)
    (h : s.repositories.filter env.valid = []) :
    (batch_delete env s ac).exitCode = some 1
    ∧ (batch_delete env s ac).confirmPrompted = false
    ∧ (batch_delete env s ac).deletionCalls = []
    ∧ (batch_delete env s ac).liveDeleteCalls = [] := by
  rw [batch_delete_no_valid env s ac h]
  exact ⟨rfl, rfl, rfl, rfl⟩

/-- Witness for C5 with one candidate that fails validation. -/
theorem empty_validated_exits_one_witness :
    (batch_delete envNoneValid sOne false).exitCode = some 1
    ∧ (batch_delete envNoneValid sOne false).confirmPrompted = false
    ∧ (batch_delete envNoneValid sOne false).deletionCalls = []
    ∧ (batch_delete envNoneValid sOne false).liveDeleteCalls = [] :=
  empty_validated_exits_one envNoneValid sOne false (by decide)

/-- Claim C6: interactive selection over a non-empty listing: input
whose stripped form is the token `all` selects the whole listing in
order; any other input selects exactly the repositories at the in-range
numeric 1-based indices of its whitespace-separated tokens, in token
order, skipping out-of-range and non-numeric tokens; an empty resulting
selection exits with code 0 (modelled by `none`).  The token list
`1 3 99 abc` against five repositories selects items 1 and 3. -/
theorem interactive_selection_spec (repos : List String) (line : String)
    (h : repos ≠ []) :
    interactive_selection repos (some line)
      = (if pyLower (pyStrip line) = "all" then some repos
         else if selectedBySpec (pyStrip line) repos = [] then none
         else some (selectedBySpec (pyStrip line) repos))
    ∧ interactive_selection ["r1", "r2", "r3", "r4", "r5"] (some "1 3 99 abc")
      = some ["r1", "r3"] := by
  have hE : repos.isEmpty = false := by
    simp [List.isEmpty_iff, h]
  constructor
  · by_cases hall : pyLower (pyStrip line) = "all"
    · simp [interactive_selection, hE, hall, List.isEmpty_iff, h]
    · by_cases hsel : selectedBySpec (pyStrip line) repos = []
      · simp [interactive_selection, hE, hall, selectFromTokens_eq, hsel,
          List.isEmpty_iff]
      · simp [interactive_selection, hE, hall, selectFromTokens_eq, hsel,
          List.isEmpty_iff]
  · decide

/-- Witness for C6 on the five-repository example. -/
theorem interactive_selection_spec_witness :
    interactive_selection ["r1", "r2", "r3", "r4", "r5"] (some "1 3 99 abc")
      = some ["r1", "r3"]
    ∧ interactive_selection ["r1", "r2"] (some "all") = some ["r1", "r2"] := by
  refine ⟨(interactive_selection_spec ["r1", "r2", "r3", "r4", "r5"] "1 3 99 abc"
    (by decide)).2, ?_⟩
  have h := (interactive_selection_spec ["r1", "r2"] "all" (by decide)).1
  rw [h]
  decide

/-- Claim C7: `load_config` leaves the previously resolved username
unchanged when the config has no `username` field or an empty one, and
symmetrically leaves the repository list unchanged when the config has
no `repositories` field or an empty one. -/
theorem load_config_frame (c : Config) (u : String) (rs : List String) :
    ((c.username = none ∨ c.username = some "") → (load_config c u rs).1 = u)
    ∧ ((c.repositories = none ∨ c.repositories = some []) →
        (load_config c u rs).2 = rs) := by
  constructor
  · rintro (h | h) <;> simp [load_config, h]
  · rintro (h | h) <;> simp [load_config, h]

/-- Witness for C7: a config with only repositories preserves the
username, and a config with only a username preserves the list. -/
theorem load_config_frame_witness :
    (load_config { username := none, repositories := some ["r1"] } "me" ["old"]).1 = "me"
    ∧ (load_config { username := some "x", repositories := none } "me" ["old"]).2
      = ["old"] :=
  ⟨(load_config_frame { username := none, repositories := some ["r1"] } "me" ["old"]).1
      (Or.inl rfl),
   (load_config_frame { username := some "x", repositories := none } "me" ["old"]).2
      (Or.inl rfl)⟩

/-- Claim C8: at the summary, the failure counter equals the validation
failures plus the live-mode deletion failures, the success counter
equals the number of `delete_repository` calls that returned true
(every call in dry-run mode), and the printed total equals the sum of
the two counters. -/
theorem summary_counts (env : Env) (s : DeleterState) (ac : Bool)
    (hvalid : s.repositories.filter env.valid ≠ [])
    (hgo : confirmOk ac env.confirmation = true) :
    (batch_delete env s ac).failed
      = (s.repositories.filter (fun r => !env.valid r)).length
        + (if s.dry_run then 0
           else ((batch_delete env s ac).deletionCalls.filter
              (fun r => !env.deleteOk r)).length)
    ∧ (batch_delete env s ac).successful
      = ((batch_delete env s ac).deletionCalls.filter
          (fun r => s.dry_run || env.deleteOk r)).length
    ∧ (batch_delete env s ac).totalPrinted
      = some ((batch_delete env s ac).successful + (batch_delete env s ac).failed) := by
  rw [batch_delete_proceed env s ac hvalid hgo]
  cases hd : s.dry_run with
  | true => refine ⟨by simp [callOk, hd], by simp [callOk, hd], rfl⟩
  | false => refine ⟨by simp [callOk, hd], by simp [callOk, hd], rfl⟩

/-- Witness for C8 on a concrete mixed live run: one validation failure,
one live deletion failure, two successes, total four. -/
theorem summary_counts_witness :
    (batch_delete envMixed sLive false).failed = 2
    ∧ (batch_delete envMixed sLive false).successful = 2
    ∧ (batch_delete envMixed sLive false).totalPrinted = some 4 := by
  obtain ⟨h1, h2, h3⟩ := summary_counts envMixed sLive false (by decide) (by decide)
  exact ⟨h1.trans (by decide), h2.trans (by decide), h3.trans (by decide)⟩

/-- Claim C9: whenever `main` reaches `batch_delete`, the repository
list is non-empty, and the "No repositories specified for deletion."
exit branch of `main` is unreachable for every input. -/
theorem no_repos_branch_unreachable (args : Args) (ghUser : Option String)
    (configStep : Option (Option Config)) (fileStep : Option (Option (List String)))
    (listed : List String) (selInput : Option String) :
    mainResolve args ghUser configStep fileStep listed selInput ≠ MainRes.noReposBranch
    ∧ ∀ u rs, mainResolve args ghUser configStep fileStep listed selInput
        = MainRes.proceed u rs → rs ≠ [] := by
  rcases configStep with _ | (_ | c)
  · simp only [mainResolve]
    exact ⟨(mainAfterConfig_spec args fileStep listed selInput _ _).1,
      fun u rs h => ((mainAfterConfig_spec args fileStep listed selInput _ _).2 u rs h).2⟩
  · refine ⟨?_, ?_⟩
    · intro h
      simp [mainResolve] at h
    · intro u rs h
      simp [mainResolve] at h
  · simp only [mainResolve]
    exact ⟨(mainAfterConfig_spec args fileStep listed selInput _ _).1,
      fun u rs h => ((mainAfterConfig_spec args fileStep listed selInput _ _).2 u rs h).2⟩

/-- Witness for C9 at a run with one positional repository name. -/
theorem no_repos_branch_unreachable_witness :
    mainResolve argsPositional none none none [] none ≠ MainRes.noReposBranch
    ∧ (["a"] : List String) ≠ [] :=
  ⟨(no_repos_branch_unreachable argsPositional none none none [] none).1,
   (no_repos_branch_unreachable argsPositional none none none [] none).2 "" ["a"]
     (by decide)⟩

/-- Claim C10: the `all` token of interactive selection is matched
case-insensitively — any input whose stripped, lowercased form is `all`
selects every listed repository. -/
theorem interactive_selection_all_case_insensitive (repos : List String) (line : String)
    (h1 : repos ≠ []) (h2 : pyLower (pyStrip line) = "all") :
    interactive_selection repos (some line) = some repos := by
  have hE : repos.isEmpty = false := by
    simp [List.isEmpty_iff, h1]
  simp [interactive_selection, hE, h2, List.isEmpty_iff, h1]

/-- Witness for C10 with the uppercase inputs `ALL` and `All`. -/
theorem interactive_selection_all_case_insensitive_witness :
    interactive_selection ["x", "y"] (some "ALL") = some ["x", "y"]
    ∧ interactive_selection ["x", "y"] (some "All") = some ["x", "y"] :=
  ⟨interactive_selection_all_case_insensitive ["x", "y"] "ALL" (by decide) (by decide),
   interactive_selection_all_case_insensitive ["x", "y"] "All" (by decide) (by decide)⟩
